import Mathlib

/-!
Verification development for the video-recording control subsystem of the
`playwright-mcp` repository (shallow embedding of `src/tools/video.ts` and the
video-recording part of the `Context` class).

Modelling conventions:
* Timestamps are integers (milliseconds since epoch); `Date.now()` appears as
  an explicit `now : Int` argument.  The TypeScript code divides differences
  by 1000 to report seconds; the model keeps milliseconds, so every reported
  duration here is the raw difference.
* The mutable module-level `videoRecordingState` record becomes the
  `SessionRecord` structure, and the `Context` object's video-recording
  fields become the `Env` structure; each handler is a function from the
  combined `GlobalState` to an outcome carrying the mutated state.  A thrown
  exception is the `err` outcome; because the real code mutates global state
  in place, the `err` outcome also carries the state as mutated up to the
  throw.
* External collaborators (Playwright, the filesystem, timers) enter as data:
  the artifact path a recreated page will report is the `capPath` argument,
  a failing context teardown / artifact read is the `finalizeFails` flag of
  the environment, and the single-shot recording timeout is the
  `recordingTimeout : Option Int` field (armed deadline) consumed by an
  explicit `fire` step.  Fire-and-forget overlay pushes and debug logging
  have no state effect and are omitted.
-/

namespace PlaywrightVideo

/-- Decidable equality for `Except`, used to evaluate outcomes of the
    embedded fallible operations on concrete inputs. -/
instance exceptDecEq {ε α : Type} [DecidableEq ε] [DecidableEq α] :
    DecidableEq (Except ε α)
  | .ok a, .ok b =>
      if h : a = b then .isTrue (by rw [h])
      else .isFalse (by intro hc; cases hc; exact h rfl)
  | .ok _, .error _ => .isFalse (by intro hc; cases hc)
  | .error _, .ok _ => .isFalse (by intro hc; cases hc)
  | .error e, .error f =>
      if h : e = f then .isTrue (by rw [h])
      else .isFalse (by intro hc; cases hc; exact h rfl)

/-- `RecordingState` from `overlay-template.ts` / `data-model.md`. -/
inductive RecordingState where
  | idle
  | recording
  | stopped
deriving DecidableEq, Repr, Fintype

/-- The action parameter of `browser_video_overlay_control`. -/
inductive ControlAction where
  | record
  | pause
  | resume
  | stop
deriving DecidableEq, Repr, Fintype

/-- The four overlay corner positions (`OverlayPosition` in `config.ts`). -/
inductive OverlayPosition where
  | topLeft
  | topRight
  | bottomLeft
  | bottomRight
deriving DecidableEq, Repr, Fintype

/-- Every distinct `throw new Error(...)` message reachable in the embedded
    code, one constructor per message. -/
inductive Err where
  /-- 'Overlay must be enabled before recording' (validateStateTransition) -/
  | overlayMustBeEnabled
  /-- 'Invalid state transition: cur → tgt' (validateStateTransition) -/
  | invalidStateTransition (cur tgt : RecordingState)
  /-- 'No active recording to stop/pause' (validateStateTransition) -/
  | noActiveRecording
  /-- 'Can only resume from stopped state' (validateStateTransition) -/
  | canOnlyResumeFromStopped
  /-- 'OVERLAY_NOT_ENABLED: ...' (videoOverlayControl entry check) -/
  | overlayNotEnabledTool
  /-- 'OVERLAY_ALREADY_ENABLED: ...' (videoOverlayEnable entry check) -/
  | overlayAlreadyEnabled
  /-- 'No current snapshot available. ...' (Context.currentTabOrDie) -/
  | noCurrentTab
  /-- 'Video recording is already enabled.' (Context.startVideoRecording) -/
  | videoAlreadyEnabled
  /-- 'Video recording is not enabled.' (Context.stopVideoRecording) -/
  | videoNotEnabled
  /-- an environment-level failure while reading the artifact path or
      closing the browser context (external fault surfaced by Playwright) -/
  | envFailure
  /-- 'Failed to stop recording during pause action' (pause handler) -/
  | failedToStopDuringPause
deriving DecidableEq, Repr

/-- The target state the control handler computes for each action
    (`videoOverlayControl`, switch on `action`). -/
def targetStateFor : ControlAction → RecordingState
  | .record => .recording
  | .pause => .stopped
  | .stop => .stopped
  | .resume => .recording

/-- The `validTransitions` table literal inside `validateStateTransition`. -/
def validTransitions : RecordingState → List RecordingState
  | .idle => [.recording]
  | .recording => [.stopped, .recording]
  | .stopped => [.recording]

/-- `validateStateTransition(currentState, targetState, action)` from
    `video.ts`, with the read of the global `videoRecordingState.overlayEnabled`
    made an explicit argument.  The checks appear in source order. -/
def validateStateTransition (overlayEnabled : Bool)
    (currentState targetState : RecordingState) (action : ControlAction) :
    Except Err Unit :=
  if !overlayEnabled then .error .overlayMustBeEnabled
  else if action = .record then .ok ()
  else if action = .stop ∧ currentState = .stopped then .ok ()
  else if !((validTransitions currentState).contains targetState) then
    .error (.invalidStateTransition currentState targetState)
  else if (action = .stop ∨ action = .pause) ∧ currentState ≠ .recording then
    .error .noActiveRecording
  else if action = .resume ∧ currentState ≠ .stopped then
    .error .canOnlyResumeFromStopped
  else .ok ()

/-- A live page of the browser context: its URL and the artifact path its
    `video()` handle resolves to (`none` when the page has no video). -/
structure Page where
  url : String
  videoPath : Option String
deriving DecidableEq, Repr

/-- The video-recording-relevant state of the `Context` class
    (`part_003`): whether `_videoRecordingEnabled` is set, whether a
    browser context currently exists (`_browserContextPromise`), its pages
    (`_tabs`), and whether the next teardown / artifact read will fail. -/
structure Env where
  recordingEnabled : Bool
  hasContext : Bool
  pages : List Page
  finalizeFails : Bool
deriving DecidableEq, Repr

/-- `Context.startVideoRecording(recordVideoOptions)`: record non-placeholder
    page URLs, tear the context down, recreate it with capture enabled, and
    recreate one page per recorded URL (or a single blank page).  `capPath` is
    the artifact path Playwright will report for pages of the new context. -/
def startVideoRecording (env : Env) (capPath : Option String) : Except Err Env :=
  if env.recordingEnabled then .error .videoAlreadyEnabled
  else
    let currentUrls :=
      (env.pages.map Page.url).filter (fun u => u != "" && u != "about:blank")
    let newPages :=
      if currentUrls.isEmpty then [⟨"about:blank", capPath⟩]
      else currentUrls.map (fun u => ⟨u, capPath⟩)
    .ok { recordingEnabled := true
          hasContext := true
          pages := newPages
          finalizeFails := env.finalizeFails }

/-- `Context.stopVideoRecording()`: read the artifact path from the first
    page if a context exists, close the context to finalize, reset the
    enabled flag, and return the path.  The close / path read can fail
    (`finalizeFails`), in which case the error propagates before the enabled
    flag is reset. -/
def stopVideoRecordingCtx (env : Env) : Except Err (Option String × Env) :=
  if !env.recordingEnabled then .error .videoNotEnabled
  else if env.hasContext then
    if env.finalizeFails then .error .envFailure
    else
      let vp := match env.pages with
        | [] => none
        | p :: _ => p.videoPath
      .ok (vp, { env with recordingEnabled := false, hasContext := false, pages := [] })
  else
    .ok (none, { env with recordingEnabled := false })

/-- `Context.ensureTab()`: make sure a context and a current tab exist
    (creates a blank page when there is none). -/
def ensureTab (env : Env) : Env :=
  if env.pages.isEmpty then
    { env with hasContext := true, pages := [⟨"about:blank", none⟩] }
  else { env with hasContext := true }

/-- The module-level mutable `videoRecordingState` record of `video.ts`.
    Opaque object references (`browserContext`, `contextRef`) are kept as
    presence flags; `config` is not modelled. -/
structure SessionRecord where
  isRecording : Bool
  startTime : Option Int
  filename : Option String
  videoPath : Option String
  browserContextSet : Bool
  overlayEnabled : Bool
  overlayPosition : OverlayPosition
  overlayState : RecordingState
  sessionId : Option String
  stopTime : Option Int
  recordingTimeout : Option Int
  contextRefSet : Bool
deriving DecidableEq, Repr

/-- The initializer of `videoRecordingState`. -/
def initialSession : SessionRecord :=
  { isRecording := false, startTime := none, filename := none,
    videoPath := none, browserContextSet := false, overlayEnabled := false,
    overlayPosition := .topRight, overlayState := .idle, sessionId := none,
    stopTime := none, recordingTimeout := none, contextRefSet := false }

/-- The combined mutable state: the session record plus the context. -/
structure GlobalState where
  session : SessionRecord
  env : Env
deriving DecidableEq, Repr

/-- `MAX_RECORDING_DURATION_MS` (7 minutes). -/
def maxRecordingDurationMs : Int := 7 * 60 * 1000

/-- The deterministic capture file name built from the action timestamp
    (`overlay-recording-${timestamp}.webm`). -/
def filenameFor (now : Int) : String :=
  "overlay-recording-" ++ toString now ++ ".webm"

/-- `outputFile(config, filename)` resolved against the configured output
    directory; the directory prefix is elided. -/
def videoFilePathFor (now : Int) : String := filenameFor now

/-- JavaScript truthiness of a `string | undefined` value: the empty string
    and `undefined` are both falsy. -/
def truthy : Option String → Option String
  | some s => if s = "" then none else some s
  | none => none

/-- `stopRecordingInternal(context, reason)`: clear the timeout, and if a
    recording is active, attempt `stopVideoRecording` (errors are caught and
    logged) and force the record into the stopped shape.  Returns the
    artifact path when one was obtained. -/
def stopRecordingInternal (g : GlobalState) (now : Int) :
    Option String × GlobalState :=
  let s0 := { g.session with recordingTimeout := none }
  if s0.isRecording then
    match stopVideoRecordingCtx g.env with
    | .error _ =>
        (none,
         ⟨{ s0 with isRecording := false, overlayState := .stopped, stopTime := some now }, g.env⟩)
    | .ok (vp, envNew) =>
        (truthy vp,
         ⟨{ s0 with isRecording := false, overlayState := .stopped, stopTime := some now }, envNew⟩)
  else (none, ⟨s0, g.env⟩)

/-- The body of the `setTimeout` callback armed by `startRecordingTimeout`:
    if a context reference was stored, run `stopRecordingInternal` with
    reason 'max duration reached'. -/
def fireWatchdog (g : GlobalState) (now : Int) : GlobalState :=
  if g.session.contextRefSet then (stopRecordingInternal g now).2 else g

/-- Outcome of one `browser_video_overlay_control` invocation: either the
    reported previous/current state, artifact path and duration, or a thrown
    error; both carry the global state as left by the handler. -/
inductive COut where
  | ok (previousState currentState : RecordingState)
       (videoPath : Option String) (durationMs : Option Int) (g : GlobalState)
  | err (e : Err) (g : GlobalState)
deriving DecidableEq, Repr

/-- The global state after the control handler returns or throws. -/
def COut.state : COut → GlobalState
  | .ok _ _ _ _ g => g
  | .err _ g => g

/-- The `record` action handler (T023): auto-stop any active recording, then
    start a new capture, refresh the session record and arm the watchdog. -/
def recordAction (g : GlobalState) (now : Int) (capPath : Option String)
    (previousState : RecordingState) : COut :=
  let g1 :=
    if g.session.isRecording then
      let gStopped := (stopRecordingInternal g now).2
      ⟨{ gStopped.session with overlayState := .idle }, gStopped.env⟩
    else g
  match startVideoRecording g1.env capPath with
  | .error e => .err e g1
  | .ok envNew =>
      let sNew := { g1.session with
        isRecording := true, startTime := some now,
        filename := some (filenameFor now),
        videoPath := some (videoFilePathFor now),
        browserContextSet := true, overlayState := .recording,
        recordingTimeout := some (now + maxRecordingDurationMs),
        contextRefSet := true }
      .ok previousState .recording none none ⟨sNew, envNew⟩

/-- The `resume` action handler (T025): start a new capture; unlike `record`
    it also deletes `stopTime`. -/
def resumeAction (g : GlobalState) (now : Int) (capPath : Option String)
    (previousState : RecordingState) : COut :=
  match startVideoRecording g.env capPath with
  | .error e => .err e g
  | .ok envNew =>
      let sNew := { g.session with
        isRecording := true, startTime := some now,
        filename := some (filenameFor now),
        videoPath := some (videoFilePathFor now),
        browserContextSet := true, overlayState := .recording,
        stopTime := none,
        recordingTimeout := some (now + maxRecordingDurationMs),
        contextRefSet := true }
      .ok previousState .recording none none ⟨sNew, envNew⟩

/-- The `pause` action handler (T024): clear the timeout, stop the capture
    (errors propagate), and on a truthy result with a start time transition
    to stopped; otherwise throw. -/
def pauseAction (g : GlobalState) (now : Int)
    (previousState : RecordingState) : COut :=
  let s0 := { g.session with recordingTimeout := none }
  match stopVideoRecordingCtx g.env with
  | .error e => .err e ⟨s0, g.env⟩
  | .ok (vp, envNew) =>
      match truthy vp, s0.startTime with
      | some p, some st =>
          .ok previousState .stopped (some p) (some (now - st))
            ⟨{ s0 with isRecording := false, overlayState := .stopped, stopTime := some now }, envNew⟩
      | _, _ => .err .failedToStopDuringPause ⟨s0, envNew⟩

/-- The `stop` action handler (T026): clear the timeout, stop the capture
    (errors propagate), and transition to stopped whether or not a result
    and start time were available. -/
def stopAction (g : GlobalState) (now : Int)
    (previousState : RecordingState) : COut :=
  let s0 := { g.session with recordingTimeout := none }
  match stopVideoRecordingCtx g.env with
  | .error e => .err e ⟨s0, g.env⟩
  | .ok (vp, envNew) =>
      match truthy vp, s0.startTime with
      | some p, some st =>
          .ok previousState .stopped (some p) (some (now - st))
            ⟨{ s0 with isRecording := false, overlayState := .stopped, stopTime := some now }, envNew⟩
      | _, _ =>
          .ok previousState .stopped (truthy s0.videoPath) none
            ⟨{ s0 with isRecording := false, overlayState := .stopped, stopTime := some now }, envNew⟩

/-- The `browser_video_overlay_control` tool handler: entry checks
    (overlay enabled, current tab), target-state computation,
    `validateStateTransition`, then the per-action handler. -/
def videoOverlayControl (g : GlobalState) (action : ControlAction)
    (now : Int) (capPath : Option String) : COut :=
  if !g.session.overlayEnabled then .err .overlayNotEnabledTool g
  else
    let previousState := g.session.overlayState
    if g.env.pages.isEmpty then .err .noCurrentTab g
    else
      let targetState := targetStateFor action
      match validateStateTransition g.session.overlayEnabled previousState
          targetState action with
      | .error e => .err e g
      | .ok _ =>
          match action with
          | .record => recordAction g now capPath previousState
          | .pause => pauseAction g now previousState
          | .resume => resumeAction g now capPath previousState
          | .stop => stopAction g now previousState

/-- Result payload of `browser_video_overlay_enable`. -/
structure EnableResult where
  sessionId : String
  position : OverlayPosition
  recordingStarted : Bool
deriving DecidableEq, Repr

/-- Outcome of one `browser_video_overlay_enable` invocation. -/
inductive EOut where
  | ok (res : EnableResult) (g : GlobalState)
  | err (e : Err) (g : GlobalState)
deriving DecidableEq, Repr

/-- The global state after the enable handler returns or throws. -/
def EOut.state : EOut → GlobalState
  | .ok _ g => g
  | .err _ g => g

/-- The `browser_video_overlay_enable` tool handler: reject when already
    enabled, ensure a tab, set the overlay fields and session id, and when
    `autoStart` is requested run the record sequence. -/
def videoOverlayEnable (g : GlobalState) (position : Option OverlayPosition)
    (autoStart : Bool) (sessionId : String) (now : Int)
    (capPath : Option String) : EOut :=
  if g.session.overlayEnabled then .err .overlayAlreadyEnabled g
  else
    let env1 := ensureTab g.env
    let pos := position.getD .topRight
    let s1 := { g.session with overlayEnabled := true, overlayPosition := pos, overlayState := .idle, sessionId := some sessionId }
    if autoStart then
      let g2 : GlobalState :=
        if s1.isRecording then
          let gStopped := (stopRecordingInternal ⟨s1, env1⟩ now).2
          ⟨{ gStopped.session with overlayState := .idle }, gStopped.env⟩
        else ⟨s1, env1⟩
      match startVideoRecording g2.env capPath with
      | .error e => .err e g2
      | .ok envNew =>
          let sNew := { g2.session with
            isRecording := true, startTime := some now,
            filename := some (filenameFor now),
            videoPath := some (videoFilePathFor now),
            browserContextSet := true, overlayState := .recording,
            recordingTimeout := some (now + maxRecordingDurationMs),
            contextRefSet := true }
          .ok ⟨sessionId, pos, true⟩ ⟨sNew, envNew⟩
    else .ok ⟨sessionId, pos, false⟩ ⟨s1, env1⟩

/-- The status snapshot assembled by `browser_video_status`
    (the `status` object literal).  Elapsed time is kept in milliseconds
    (the source divides the same difference by 1000); the filesystem-derived
    `videoMetadata` block is external IO and not modelled. -/
structure VideoStatus where
  overlayEnabled : Bool
  overlayPosition : Option OverlayPosition
  sessionId : Option String
  state : RecordingState
  elapsedTimeMs : Int
  startTime : Option Int
  stopTime : Option Int
  videoPath : Option String
deriving DecidableEq, Repr

/-- The pure computation of `browser_video_status` over the session record:
    elapsed time from `startTime` / `stopTime` / `now`, and the artifact
    path masked to `null` unless the state is stopped. -/
def videoStatusOf (s : SessionRecord) (now : Int) : VideoStatus :=
  let elapsed : Int :=
    match s.startTime with
    | none => 0
    | some st => (s.stopTime.getD now) - st
  { overlayEnabled := s.overlayEnabled
  , overlayPosition :=
      if s.overlayEnabled then some s.overlayPosition else none
  , sessionId := s.sessionId
  , state := s.overlayState
  , elapsedTimeMs := elapsed
  , startTime := s.startTime
  , stopTime := s.stopTime
  , videoPath :=
      if s.overlayState = .stopped then s.videoPath else none }

/-- One externally triggered step: an enable call, a control call, or the
    watchdog timer firing (possible only while a timeout is armed). -/
inductive Cmd where
  | enable (position : Option OverlayPosition) (autoStart : Bool)
           (sessionId : String) (capPath : Option String)
  | control (action : ControlAction) (capPath : Option String)
  | fire
deriving DecidableEq, Repr

/-- Apply one timed command to the global state. -/
def step (g : GlobalState) : Cmd × Int → GlobalState
  | (.enable pos auto sid cap, now) =>
      (videoOverlayEnable g pos auto sid now cap).state
  | (.control a cap, now) => (videoOverlayControl g a now cap).state
  | (.fire, now) =>
      if g.session.recordingTimeout.isSome then fireWatchdog g now else g

/-- Run a history of timed commands. -/
def run (g : GlobalState) : List (Cmd × Int) → GlobalState
  | [] => g
  | c :: rest => run (step g c) rest

/-- The process-start state over a given initial environment. -/
def initState (env : Env) : GlobalState := ⟨initialSession, env⟩

/-- An initial environment with no browser context and a chosen teardown
    fault mode. -/
def emptyEnv (finalizeFails : Bool) : Env :=
  { recordingEnabled := false, hasContext := false, pages := [],
    finalizeFails := finalizeFails }

/-- A canonical client history: enable the overlay at time 0, record at
    time 5, stop at time 9. -/
def histEnableRecordStop : List (Cmd × Int) :=
  [(.enable none false "sid" none, 0),
   (.control .record (some "cap1"), 5),
   (.control .stop none, 9)]

/-- The state after `histEnableRecordStop` on a fault-free environment:
    a stopped session whose capture has been finalized. -/
def gAfterStop : GlobalState := run (initState (emptyEnv false)) histEnableRecordStop

/-- `gAfterStop` after the client has navigated again (an external tool call
    recreated a context and opened a page), leaving the session record
    untouched. -/
def gAfterStopNavigated : GlobalState :=
  ⟨gAfterStop.session,
   { gAfterStop.env with hasContext := true, pages := [⟨"https://example.com", none⟩] }⟩

/-- A session in the middle of an active recording on a healthy
    environment, with the watchdog armed. -/
def gActiveRecording : GlobalState :=
  ⟨{ isRecording := true, startTime := some 5, filename := some "f",
     videoPath := some "v", browserContextSet := true, overlayEnabled := true,
     overlayPosition := .topRight, overlayState := .recording,
     sessionId := some "sid", stopTime := none,
     recordingTimeout := some 420005, contextRefSet := true },
   { recordingEnabled := true, hasContext := true,
     pages := [⟨"https://a", some "art"⟩], finalizeFails := false }⟩

/-- `gActiveRecording` with a failing environment teardown (for example the
    browser already crashed, so closing the context rejects). -/
def gActiveRecordingBad : GlobalState :=
  ⟨gActiveRecording.session,
   { gActiveRecording.env with finalizeFails := true }⟩

/-- A client history issuing `record` twice without an intervening stop:
    the second `record` auto-stops the first capture. -/
def histDoubleRecord : List (Cmd × Int) :=
  [(.enable none false "sid" none, 0),
   (.control .record (some "cap1"), 5),
   (.control .record (some "cap2"), 9)]

/-- The state reached by `histDoubleRecord` when the environment teardown
    fails: the auto-stop inside the second `record` swallows the teardown
    error, the handler resets the state to idle, and the subsequent
    `startVideoRecording` throws because the context flag was never reset. -/
def gIdleBroken : GlobalState := run (initState (emptyEnv true)) histDoubleRecord

/-- The idle-state invariant claimed by the specification: an idle session
    carries no output path and no start time. -/
def SessionIdleInv (g : GlobalState) : Prop :=
  g.session.overlayState = .idle →
    g.session.videoPath = none ∧ g.session.startTime = none

/-- The inductive strengthening of `SessionIdleInv` used for the history
    induction: the environment never fails teardown, a never-enabled overlay
    means a pristine session, and an enabled capture context implies an
    active recording. -/
def Inv (g : GlobalState) : Prop :=
  g.env.finalizeFails = false ∧
  (g.session.overlayEnabled = false →
     g.session.startTime = none ∧ g.session.videoPath = none ∧
     g.session.overlayState = .idle ∧ g.session.isRecording = false ∧
     g.env.recordingEnabled = false) ∧
  (g.env.recordingEnabled = true → g.session.isRecording = true) ∧
  SessionIdleInv g

/-- C1: the acceptance pattern of `validateStateTransition` matches the
    spec table, but the rejection reasons do not: `stop` and `pause` from
    `idle`, and `pause` from `stopped`, are rejected with the
    'Invalid state transition' error because the transition-table check runs
    before the 'No active recording to stop/pause' check, which (for the
    target states the tool actually passes) is unreachable dead code. -/
theorem validate_rejects_invalidTransition_not_noActiveCapture :
    validateStateTransition true .idle .stopped .stop
      = .error (.invalidStateTransition .idle .stopped) ∧
    validateStateTransition true .idle .stopped .pause
      = .error (.invalidStateTransition .idle .stopped) ∧
    validateStateTransition true .stopped .stopped .pause
      = .error (.invalidStateTransition .stopped .stopped) ∧
    (∀ (c : RecordingState) (a : ControlAction),
      validateStateTransition true c (targetStateFor a) a
        ≠ .error .noActiveRecording) := by
  decide

/-- C2: handling `stop` on a session that is already stopped throws.  From
    the state directly after a stop there is no current tab, so
    `currentTabOrDie` throws; and if the client has navigated in between,
    the unguarded `context.stopVideoRecording()` throws
    'Video recording is not enabled.'.  In both cases the session record is
    left unchanged, but the action errors instead of succeeding. -/
theorem stop_when_already_stopped_errors :
    gAfterStop.session.overlayState = .stopped ∧
    videoOverlayControl gAfterStop .stop 20 none = .err .noCurrentTab gAfterStop ∧
    gAfterStopNavigated.session.overlayState = .stopped ∧
    videoOverlayControl gAfterStopNavigated .stop 20 none
      = .err .videoNotEnabled gAfterStopNavigated := by
  decide

/-- C3 counterexample: after enable, record, and a second record issued
    while the environment teardown fails, the session record is `idle` with
    a non-null `startTime` and a non-null `videoPath`, violating the
    claimed invariant. -/
theorem idle_invariant_counterexample :
    gIdleBroken.session.overlayState = .idle ∧
    gIdleBroken.session.startTime ≠ none ∧
    gIdleBroken.session.videoPath ≠ none := by
  decide

/-- C4 counterexample: with a recording active and a failing environment
    teardown, the watchdog path forces the session into `stopped`, while the
    manual `stop` action propagates the teardown error and leaves the
    session recording — the two sequences are not identical. -/
theorem watchdog_and_manual_stop_differ_on_finalize_failure :
    fireWatchdog gActiveRecordingBad 10
      ≠ (videoOverlayControl gActiveRecordingBad .stop 10 none).state ∧
    (fireWatchdog gActiveRecordingBad 10).session.overlayState = .stopped ∧
    (videoOverlayControl gActiveRecordingBad .stop 10 none).state.session.overlayState
      = .recording ∧
    videoOverlayControl gActiveRecordingBad .stop 10 none
      = .err .envFailure
          ⟨{ gActiveRecordingBad.session with recordingTimeout := none },
           gActiveRecordingBad.env⟩ := by
  decide

/-- C5: after a successful `record` from a stopped session, the session
    record's `videoPath` is the new capture's file path (not null) and the
    stale `stopTime` of the previous capture is retained (`resume` deletes
    `stopTime`, `record` does not), contradicting the claim and the
    repository's own data model ('videoPath must be null while recording',
    'stopTime null if still recording'). -/
theorem record_sets_videoPath_and_keeps_stale_stopTime :
    (videoOverlayControl gAfterStopNavigated .record 20 (some "cap2")).state.session.videoPath
      = some (videoFilePathFor 20) ∧
    (videoOverlayControl gAfterStopNavigated .record 20 (some "cap2")).state.session.stopTime
      = some 9 ∧
    (videoOverlayControl gAfterStopNavigated .record 20 (some "cap2")).state.session.overlayState
      = .recording ∧
    (videoOverlayControl gAfterStopNavigated .resume 30 (some "cap3")).state.session.videoPath
      = some (videoFilePathFor 30) ∧
    (videoOverlayControl gAfterStopNavigated .resume 30 (some "cap3")).state.session.stopTime
      = none := by
  decide

/-- C6: the status report computes elapsed time as
    `(stopTime ?? now) - startTime`, zero when `startTime` is unset; and on
    the concrete enable→record→stop history the reported elapsed time equals
    `stopTime - startTime` independently of the query time. -/
theorem status_elapsedTime_formula (s : SessionRecord) (now st sp : Int) :
    (s.startTime = none → (videoStatusOf s now).elapsedTimeMs = 0) ∧
    (s.startTime = some st →
      (videoStatusOf s now).elapsedTimeMs = (s.stopTime.getD now) - st) ∧
    (s.startTime = some st → s.stopTime = some sp →
      (videoStatusOf s now).elapsedTimeMs = sp - st) ∧
    (gAfterStop.session.startTime = some 5 ∧
     gAfterStop.session.stopTime = some 9 ∧
     (videoStatusOf gAfterStop.session 100).elapsedTimeMs = 9 - 5 ∧
     (videoStatusOf gAfterStop.session 2000).elapsedTimeMs = 9 - 5) := by
  refine ⟨fun h => ?_, fun h => ?_, fun h hsp => ?_, by decide⟩ <;>
    simp [videoStatusOf, h]
  simp [hsp]

/-- C6 witness: the elapsed-time formula evaluated on the session reached by
    enable→record→stop. -/
theorem status_elapsedTime_formula_witness :
    gAfterStop.session.startTime = some 5 ∧ gAfterStop.session.stopTime = some 9 ∧
    (videoStatusOf gAfterStop.session 100).elapsedTimeMs = 9 - 5 :=
  ⟨by decide, by decide,
   (status_elapsedTime_formula gAfterStop.session 100 5 9).2.2.1 (by decide) (by decide)⟩

/-- C8: when the watchdog fires during an active recording and the
    environment finalization fails (the artifact path cannot be read or the
    teardown errors), the session record is still forced into `stopped` with
    `isRecording` false and `stopTime` set; the failure is swallowed (the
    environment is left as it was, and no error escapes — `fireWatchdog` is
    total). -/
theorem watchdog_forces_stopped_on_finalize_failure (g : GlobalState)
    (now : Int) (e : Err)
    (h1 : g.session.isRecording = true)
    (h2 : g.session.contextRefSet = true)
    (h3 : stopVideoRecordingCtx g.env = .error e) :
    (fireWatchdog g now).session.overlayState = .stopped ∧
    (fireWatchdog g now).session.isRecording = false ∧
    (fireWatchdog g now).session.stopTime = some now ∧
    (fireWatchdog g now).session.recordingTimeout = none ∧
    (fireWatchdog g now).env = g.env := by
  simp [fireWatchdog, h2, stopRecordingInternal, h1, h3]

/-- C8 witness: the watchdog firing on the concrete recording session with
    failing teardown. -/
theorem watchdog_forces_stopped_witness :
    (fireWatchdog gActiveRecordingBad 10).session.overlayState = .stopped ∧
    (fireWatchdog gActiveRecordingBad 10).session.isRecording = false ∧
    (fireWatchdog gActiveRecordingBad 10).session.stopTime = some 10 :=
  let h := watchdog_forces_stopped_on_finalize_failure gActiveRecordingBad 10
    .envFailure (by decide) (by decide) (by decide)
  ⟨h.1, h.2.1, h.2.2.1⟩

/-- C7: a successful `startVideoRecording` records the URLs of the open
    pages excluding placeholders (empty URL or about:blank), recreates a
    capture-enabled environment, and opens exactly one page per recorded
    URL, or exactly one blank page when no non-placeholder URL existed. -/
theorem startVideoRecording_recreates_pages (env : Env) (cap : Option String)
    (h : env.recordingEnabled = false) :
    ∃ envNew, startVideoRecording env cap = .ok envNew ∧
      envNew.recordingEnabled = true ∧ envNew.hasContext = true ∧
      envNew.pages.map Page.url =
        (if ((env.pages.map Page.url).filter
              (fun u => u != "" && u != "about:blank")).isEmpty
         then ["about:blank"]
         else (env.pages.map Page.url).filter
              (fun u => u != "" && u != "about:blank")) ∧
      envNew.pages.length =
        (if ((env.pages.map Page.url).filter
              (fun u => u != "" && u != "about:blank")).isEmpty
         then 1
         else ((env.pages.map Page.url).filter
              (fun u => u != "" && u != "about:blank")).length) := by
  have hrun : startVideoRecording env cap = .ok
      { recordingEnabled := true, hasContext := true,
        pages :=
          if ((env.pages.map Page.url).filter
                (fun u => u != "" && u != "about:blank")).isEmpty
          then [⟨"about:blank", cap⟩]
          else ((env.pages.map Page.url).filter
                (fun u => u != "" && u != "about:blank")).map (fun u => ⟨u, cap⟩),
        finalizeFails := env.finalizeFails } := by
    unfold startVideoRecording
    rw [h]
    rfl
  have hid : (Page.url ∘ fun u => ({ url := u, videoPath := cap } : Page)) = id := rfl
  refine ⟨_, hrun, rfl, rfl, ?_, ?_⟩ <;>
    by_cases hc : ((env.pages.map Page.url).filter
        (fun u => u != "" && u != "about:blank")).isEmpty <;>
    simp [hc, List.map_map, hid]

/-- C7 witness: recreation on an environment holding a blank page, a real
    page and an empty-URL page. -/
theorem startVideoRecording_recreates_pages_witness :
    (let env : Env :=
      { recordingEnabled := false, hasContext := true,
        pages := [⟨"about:blank", none⟩, ⟨"https://a", none⟩, ⟨"", none⟩],
        finalizeFails := false }
     ∃ envNew, startVideoRecording env (some "cap") = .ok envNew ∧
       envNew.recordingEnabled = true ∧ envNew.hasContext = true ∧
       envNew.pages.map Page.url =
         (if ((env.pages.map Page.url).filter
               (fun u => u != "" && u != "about:blank")).isEmpty
          then ["about:blank"]
          else (env.pages.map Page.url).filter
               (fun u => u != "" && u != "about:blank")) ∧
       envNew.pages.length =
         (if ((env.pages.map Page.url).filter
               (fun u => u != "" && u != "about:blank")).isEmpty
          then 1
          else ((env.pages.map Page.url).filter
               (fun u => u != "" && u != "about:blank")).length)) :=
  startVideoRecording_recreates_pages _ (some "cap") rfl

/-- C9: the status report returns `videoPath` as null whenever the session
    state is not `stopped`, and a non-null reported path implies the state
    is `stopped`; yet a successful `record` action assigns the internal
    `videoPath` immediately (masked by the status report while recording). -/
theorem status_masks_videoPath_until_stopped (s : SessionRecord)
    (now now2 : Int) (g : GlobalState) (cap : Option String) :
    (s.overlayState ≠ .stopped → (videoStatusOf s now).videoPath = none) ∧
    ((videoStatusOf s now).videoPath ≠ none → s.overlayState = .stopped) ∧
    (∀ prev vp d gNew,
      videoOverlayControl g .record now2 cap = .ok prev .recording vp d gNew →
      gNew.session.videoPath = some (videoFilePathFor now2) ∧
      (videoStatusOf gNew.session now).videoPath = none) := by
  refine ⟨fun h => ?_, fun h => ?_, fun prev vp d gNew hok => ?_⟩
  · simp [videoStatusOf, h]
  · by_contra hs
    simp [videoStatusOf, hs] at h
  · have hvr : ∀ c t, validateStateTransition true c t .record = .ok () := by decide
    by_cases h1 : g.session.overlayEnabled = true
    · by_cases h2 : g.env.pages.isEmpty = true
      · simp [videoOverlayControl, h1, h2] at hok
      · simp only [videoOverlayControl, h1, h2, hvr, Bool.not_true, Bool.false_eq_true,
          if_false, if_true] at hok
        by_cases h3 : g.session.isRecording = true <;>
          simp only [recordAction, h3, if_true, if_false, Bool.false_eq_true] at hok <;>
          · rcases hstart : startVideoRecording _ cap with e | envN <;>
              rw [hstart] at hok <;> simp only [COut.ok.injEq] at hok
            · exact absurd hok (by simp)
            · obtain ⟨-, -, -, -, rfl⟩ := hok
              simp [videoStatusOf]
    · simp [videoOverlayControl, h1] at hok

/-- C9 witness: a concrete successful `record` from a stopped session
    assigns the internal path while the status report still shows null. -/
theorem status_masks_videoPath_witness :
    (videoOverlayControl gAfterStopNavigated .record 20 (some "cap2")).state.session.videoPath
      = some (videoFilePathFor 20) ∧
    (videoStatusOf
      (videoOverlayControl gAfterStopNavigated .record 20 (some "cap2")).state.session
      500).videoPath = none := by
  have hok : videoOverlayControl gAfterStopNavigated .record 20 (some "cap2")
      = .ok .stopped .recording none none
          ((videoOverlayControl gAfterStopNavigated .record 20 (some "cap2")).state) := by
    decide
  exact (status_masks_videoPath_until_stopped initialSession 500 20
    gAfterStopNavigated (some "cap2")).2.2 _ _ _ _ hok

/-- Helper: `stopRecordingInternal` never touches the session identity
    fields (`sessionId`, `overlayPosition`, `overlayEnabled`). -/
theorem sri_preserves_identity (g : GlobalState) (now : Int) :
    (stopRecordingInternal g now).2.session.sessionId = g.session.sessionId ∧
    (stopRecordingInternal g now).2.session.overlayPosition = g.session.overlayPosition ∧
    (stopRecordingInternal g now).2.session.overlayEnabled = g.session.overlayEnabled := by
  unfold stopRecordingInternal
  by_cases hir : g.session.isRecording = true <;>
    rcases hctx : stopVideoRecordingCtx g.env with e | ⟨vp, envN⟩ <;>
    simp [hir, hctx]

/-- Helper: the `record` handler never touches the session identity fields. -/
theorem recordAction_preserves_identity (g : GlobalState) (now : Int)
    (cap : Option String) (prev : RecordingState) :
    (recordAction g now cap prev).state.session.sessionId = g.session.sessionId ∧
    (recordAction g now cap prev).state.session.overlayPosition = g.session.overlayPosition ∧
    (recordAction g now cap prev).state.session.overlayEnabled = g.session.overlayEnabled := by
  obtain ⟨hsid, hpos, hen⟩ := sri_preserves_identity g now
  unfold recordAction
  by_cases hir : g.session.isRecording = true <;>
    simp only [hir, if_true, if_false, Bool.false_eq_true] <;>
    split <;>
    simp_all [COut.state]

/-- Helper: the `resume` handler never touches the session identity fields. -/
theorem resumeAction_preserves_identity (g : GlobalState) (now : Int)
    (cap : Option String) (prev : RecordingState) :
    (resumeAction g now cap prev).state.session.sessionId = g.session.sessionId ∧
    (resumeAction g now cap prev).state.session.overlayPosition = g.session.overlayPosition ∧
    (resumeAction g now cap prev).state.session.overlayEnabled = g.session.overlayEnabled := by
  unfold resumeAction
  split <;> simp [COut.state]

/-- Helper: the `pause` handler never touches the session identity fields. -/
theorem pauseAction_preserves_identity (g : GlobalState) (now : Int)
    (prev : RecordingState) :
    (pauseAction g now prev).state.session.sessionId = g.session.sessionId ∧
    (pauseAction g now prev).state.session.overlayPosition = g.session.overlayPosition ∧
    (pauseAction g now prev).state.session.overlayEnabled = g.session.overlayEnabled := by
  unfold pauseAction
  rcases hctx : stopVideoRecordingCtx g.env with e | ⟨vp, envN⟩ <;> simp only [hctx]
  · simp [COut.state]
  · rcases htr : truthy vp with _ | p <;>
      rcases hst : g.session.startTime with _ | st <;>
      simp [htr, hst, COut.state]

/-- Helper: the `stop` handler never touches the session identity fields. -/
theorem stopAction_preserves_identity (g : GlobalState) (now : Int)
    (prev : RecordingState) :
    (stopAction g now prev).state.session.sessionId = g.session.sessionId ∧
    (stopAction g now prev).state.session.overlayPosition = g.session.overlayPosition ∧
    (stopAction g now prev).state.session.overlayEnabled = g.session.overlayEnabled := by
  unfold stopAction
  rcases hctx : stopVideoRecordingCtx g.env with e | ⟨vp, envN⟩ <;> simp only [hctx]
  · simp [COut.state]
  · rcases htr : truthy vp with _ | p <;>
      rcases hst : g.session.startTime with _ | st <;>
      simp [htr, hst, COut.state]

/-- C10: every control action (whether it succeeds or throws) and the
    watchdog auto-stop leave `sessionId`, `overlayPosition` and
    `overlayEnabled` unchanged; within the modelled operations only the
    enable handler writes `sessionId`. -/
theorem actions_preserve_session_identity (g : GlobalState) (a : ControlAction)
    (now : Int) (cap : Option String) :
    ((videoOverlayControl g a now cap).state.session.sessionId = g.session.sessionId ∧
     (videoOverlayControl g a now cap).state.session.overlayPosition = g.session.overlayPosition ∧
     (videoOverlayControl g a now cap).state.session.overlayEnabled = g.session.overlayEnabled) ∧
    ((fireWatchdog g now).session.sessionId = g.session.sessionId ∧
     (fireWatchdog g now).session.overlayPosition = g.session.overlayPosition ∧
     (fireWatchdog g now).session.overlayEnabled = g.session.overlayEnabled) := by
  have hcase : (videoOverlayControl g a now cap).state = g ∨
      (videoOverlayControl g a now cap).state
        = (recordAction g now cap g.session.overlayState).state ∨
      (videoOverlayControl g a now cap).state
        = (pauseAction g now g.session.overlayState).state ∨
      (videoOverlayControl g a now cap).state
        = (resumeAction g now cap g.session.overlayState).state ∨
      (videoOverlayControl g a now cap).state
        = (stopAction g now g.session.overlayState).state := by
    unfold videoOverlayControl
    by_cases h1 : g.session.overlayEnabled = true
    · rw [h1]
      by_cases h2 : g.env.pages.isEmpty = true
      · simp [h2, COut.state]
      · rcases hval : validateStateTransition true
            g.session.overlayState (targetStateFor a) a with e | u
        · simp [h2, hval, COut.state]
        · cases a <;> simp [h2, hval, COut.state]
    · simp [h1, COut.state]
  constructor
  · rcases hcase with h | h | h | h | h <;> rw [h]
    · exact ⟨rfl, rfl, rfl⟩
    · exact recordAction_preserves_identity g now cap g.session.overlayState
    · exact pauseAction_preserves_identity g now g.session.overlayState
    · exact resumeAction_preserves_identity g now cap g.session.overlayState
    · exact stopAction_preserves_identity g now g.session.overlayState
  · unfold fireWatchdog
    split
    · exact sri_preserves_identity g now
    · exact ⟨rfl, rfl, rfl⟩

/-- Helper: on an enabled, fault-free environment `stopVideoRecording`
    succeeds. -/
theorem ctx_stop_succeeds (env : Env) (h5 : env.recordingEnabled = true)
    (h6 : env.finalizeFails = false) :
    ∃ vp envN, stopVideoRecordingCtx env = .ok (vp, envN) := by
  unfold stopVideoRecordingCtx
  rw [h5]
  by_cases hc : env.hasContext = true <;> simp [hc, h6]

/-- C4 (amended): while a recording is active on a healthy environment
    (teardown succeeds) and a current tab exists, the watchdog firing and the
    manual `stop` action leave the identical global state — the same forced
    session record and the same finalized environment.  (When finalization
    fails the two paths differ; see the counterexample.) -/
theorem watchdog_equals_manual_stop_on_success (g : GlobalState) (now : Int)
    (cap : Option String)
    (h1 : g.session.overlayEnabled = true)
    (h2 : g.session.overlayState = .recording)
    (h3 : g.session.isRecording = true)
    (h4 : g.session.contextRefSet = true)
    (h5 : g.env.recordingEnabled = true)
    (h6 : g.env.finalizeFails = false)
    (h7 : g.env.pages.isEmpty = false) :
    (videoOverlayControl g .stop now cap).state = fireWatchdog g now := by
  obtain ⟨vp, envN, hctx⟩ := ctx_stop_succeeds g.env h5 h6
  have hval : validateStateTransition true .recording
      (targetStateFor .stop) .stop = .ok () := by decide
  unfold videoOverlayControl fireWatchdog stopAction stopRecordingInternal
  rw [h1, h2, h7]
  simp only [hval, hctx, h3, h4, Bool.not_true, Bool.false_eq_true, if_false,
    if_true]
  rcases htr : truthy vp with _ | p <;>
    rcases hst : g.session.startTime with _ | st <;>
    simp [htr, hst, COut.state]

/-- C4 witness: the equality evaluated on the concrete active-recording
    state with a healthy environment. -/
theorem watchdog_equals_manual_stop_witness :
    (videoOverlayControl gActiveRecording .stop 10 none).state
      = fireWatchdog gActiveRecording 10 :=
  watchdog_equals_manual_stop_on_success gActiveRecording 10 none
    rfl rfl rfl rfl rfl rfl rfl

/-- Helper: a failing `stopVideoRecording` on a fault-free environment can
    only mean recording was not enabled. -/
theorem ctx_error_means_disabled (env : Env) (e : Err)
    (hff : env.finalizeFails = false)
    (hctx : stopVideoRecordingCtx env = .error e) :
    env.recordingEnabled = false := by
  by_contra hx
  rw [Bool.not_eq_false] at hx
  obtain ⟨vp, envN, hok⟩ := ctx_stop_succeeds env hx hff
  rw [hok] at hctx
  cases hctx

/-- Helper: a successful `stopVideoRecording` disables recording and keeps
    the fault mode. -/
theorem ctx_ok_fields (env : Env) (vp : Option String) (envN : Env)
    (hctx : stopVideoRecordingCtx env = .ok (vp, envN)) :
    envN.recordingEnabled = false ∧ envN.finalizeFails = env.finalizeFails := by
  unfold stopVideoRecordingCtx at hctx
  by_cases henb : env.recordingEnabled = true <;>
    by_cases hhc : env.hasContext = true <;>
    by_cases hfx : env.finalizeFails = true <;>
    simp [henb, hhc, hfx] at hctx <;>
    obtain ⟨-, rfl⟩ := hctx <;>
    simp [hfx]

/-- Helper: a successful `startVideoRecording` enables recording and keeps
    the fault mode. -/
theorem start_ok_fields (env : Env) (cap : Option String) (envN : Env)
    (h : startVideoRecording env cap = .ok envN) :
    envN.recordingEnabled = true ∧ envN.finalizeFails = env.finalizeFails := by
  unfold startVideoRecording at h
  by_cases henb : env.recordingEnabled = true <;> simp [henb] at h
  obtain rfl := h.symm
  exact ⟨rfl, rfl⟩

/-- Helper: a failing `startVideoRecording` means recording was already
    enabled. -/
theorem start_error_means_enabled (env : Env) (cap : Option String) (e : Err)
    (h : startVideoRecording env cap = .error e) :
    env.recordingEnabled = true := by
  by_contra hx
  rw [Bool.not_eq_true] at hx
  unfold startVideoRecording at h
  rw [hx] at h
  simp at h

/-- Helper: `stopRecordingInternal` on a fault-free environment keeps it
    fault-free, and disables recording whenever a recording was active. -/
theorem sri_env (g : GlobalState) (now : Int)
    (hff : g.env.finalizeFails = false) :
    (stopRecordingInternal g now).2.env.finalizeFails = false ∧
    (g.session.isRecording = true →
      (stopRecordingInternal g now).2.env.recordingEnabled = false) := by
  unfold stopRecordingInternal
  by_cases hir : g.session.isRecording = true
  · rcases hctx : stopVideoRecordingCtx g.env with e | ⟨vp, envN⟩ <;>
      simp only [hir, if_true, hctx] <;> simp
    · exact ⟨hff, ctx_error_means_disabled g.env e hff hctx⟩
    · have hcf := ctx_ok_fields g.env vp envN hctx
      exact ⟨hcf.2.trans hff, hcf.1⟩
  · simp [hir, hff]

/-- Helper: `ensureTab` does not touch the recording flag or fault mode. -/
theorem ensureTab_fields (env : Env) :
    (ensureTab env).recordingEnabled = env.recordingEnabled ∧
    (ensureTab env).finalizeFails = env.finalizeFails := by
  unfold ensureTab
  split <;> exact ⟨rfl, rfl⟩

/-- Helper: the outcome state of a control call is either the input state or
    the outcome state of the per-action handler, in which case the overlay
    was enabled. -/
theorem control_state_cases (g : GlobalState) (a : ControlAction) (now : Int)
    (cap : Option String) :
    (videoOverlayControl g a now cap).state = g ∨
    (g.session.overlayEnabled = true ∧
      ((videoOverlayControl g a now cap).state
          = (recordAction g now cap g.session.overlayState).state ∨
       (videoOverlayControl g a now cap).state
          = (pauseAction g now g.session.overlayState).state ∨
       (videoOverlayControl g a now cap).state
          = (resumeAction g now cap g.session.overlayState).state ∨
       (videoOverlayControl g a now cap).state
          = (stopAction g now g.session.overlayState).state)) := by
  unfold videoOverlayControl
  by_cases h1 : g.session.overlayEnabled = true
  · rw [h1]
    by_cases h2 : g.env.pages.isEmpty = true
    · simp [h2, COut.state]
    · rcases hval : validateStateTransition true
          g.session.overlayState (targetStateFor a) a with e | u
      · simp [h2, hval, COut.state]
      · cases a <;> simp [h2, hval, COut.state]
  · simp [h1, COut.state]

/-- Helper: `stopRecordingInternal` preserves the strengthened invariant. -/
theorem inv_sri (g : GlobalState) (now : Int) (h : Inv g) :
    Inv (stopRecordingInternal g now).2 := by
  obtain ⟨hff, hdis, hrec, hidle⟩ := h
  unfold stopRecordingInternal
  by_cases hir : g.session.isRecording = true
  · rcases hctx : stopVideoRecordingCtx g.env with e | ⟨vp, envN⟩ <;>
      simp only [hir, if_true, hctx]
    · have henb := ctx_error_means_disabled g.env e hff hctx
      refine ⟨hff, fun hoe => absurd (hdis hoe).2.2.2.1 (by simp [hir]), ?_, ?_⟩
      · intro hre
        rw [henb] at hre
        cases hre
      · intro hid
        cases hid
    · have hcf := ctx_ok_fields g.env vp envN hctx
      refine ⟨hcf.2.trans hff,
        fun hoe => absurd (hdis hoe).2.2.2.1 (by simp [hir]), ?_, ?_⟩
      · intro hre
        rw [hcf.1] at hre
        cases hre
      · intro hid
        cases hid
  · rw [Bool.not_eq_true] at hir
    simp only [hir, Bool.false_eq_true, if_false]
    refine ⟨hff, ?_, ?_, hidle⟩
    · intro hoe
      obtain ⟨a1, a2, a3, a4, a5⟩ := hdis hoe
      exact ⟨a1, a2, a3, rfl, a5⟩
    · intro hre
      have hx := hrec hre
      rw [hir] at hx
      cases hx

/-- Helper: the `record` handler preserves the strengthened invariant. -/
theorem inv_recordAction (g : GlobalState) (now : Int) (cap : Option String)
    (prev : RecordingState) (h : Inv g)
    (h1 : g.session.overlayEnabled = true) :
    Inv (recordAction g now cap prev).state := by
  have hff := h.1
  unfold recordAction
  by_cases hir : g.session.isRecording = true
  · simp only [hir, if_true]
    rcases hstart : startVideoRecording (stopRecordingInternal g now).2.env cap
        with e | envN
    · have h2 := (sri_env g now hff).2 hir
      have h3 := start_error_means_enabled _ cap e hstart
      rw [h2] at h3
      cases h3
    · have hsf := start_ok_fields _ cap envN hstart
      have hsrif := (sri_env g now hff).1
      have hoe := (sri_preserves_identity g now).2.2
      refine ⟨hsf.2.trans hsrif, ?_, fun _ => rfl, ?_⟩
      · intro hx
        rw [hoe, h1] at hx
        cases hx
      · intro hid
        cases hid
  · rw [Bool.not_eq_true] at hir
    simp only [hir, Bool.false_eq_true, if_false]
    rcases hstart : startVideoRecording g.env cap with e | envN
    · exact h
    · have hsf := start_ok_fields g.env cap envN hstart
      refine ⟨hsf.2.trans hff, ?_, fun _ => rfl, ?_⟩
      · intro hx
        rw [h1] at hx
        cases hx
      · intro hid
        cases hid

/-- Helper: the `resume` handler preserves the strengthened invariant. -/
theorem inv_resumeAction (g : GlobalState) (now : Int) (cap : Option String)
    (prev : RecordingState) (h : Inv g)
    (h1 : g.session.overlayEnabled = true) :
    Inv (resumeAction g now cap prev).state := by
  have hff := h.1
  unfold resumeAction
  rcases hstart : startVideoRecording g.env cap with e | envN
  · exact h
  · have hsf := start_ok_fields g.env cap envN hstart
    refine ⟨hsf.2.trans hff, ?_, fun _ => rfl, ?_⟩
    · intro hx
      exact absurd (h1.symm.trans hx) (by decide)
    · intro hid
      cases hid

/-- Helper: the `pause` handler preserves the strengthened invariant. -/
theorem inv_pauseAction (g : GlobalState) (now : Int)
    (prev : RecordingState) (h : Inv g)
    (h1 : g.session.overlayEnabled = true) :
    Inv (pauseAction g now prev).state := by
  obtain ⟨hff, hdis, hrec, hidle⟩ := h
  unfold pauseAction
  rcases hctx : stopVideoRecordingCtx g.env with e | ⟨vp, envN⟩ <;>
    simp only [hctx]
  · exact ⟨hff, hdis, hrec, hidle⟩
  · have hcf := ctx_ok_fields g.env vp envN hctx
    rcases htr : truthy vp with _ | p <;>
      rcases hst : g.session.startTime with _ | st <;>
      simp only [htr, hst, COut.state]
    · refine ⟨hcf.2.trans hff, ?_, ?_, fun hid => ⟨(hidle hid).1, rfl⟩⟩
      · intro hx
        rw [h1] at hx
        cases hx
      · intro hre
        rw [hcf.1] at hre
        cases hre
    · refine ⟨hcf.2.trans hff, ?_, ?_, ?_⟩
      · intro hx
        rw [h1] at hx
        cases hx
      · intro hre
        rw [hcf.1] at hre
        cases hre
      · intro hid
        have hx := (hidle hid).2
        rw [hst] at hx
        cases hx
    · refine ⟨hcf.2.trans hff, ?_, ?_, fun hid => ⟨(hidle hid).1, rfl⟩⟩
      · intro hx
        rw [h1] at hx
        cases hx
      · intro hre
        rw [hcf.1] at hre
        cases hre
    · refine ⟨hcf.2.trans hff, ?_, ?_, ?_⟩
      · intro hx
        rw [h1] at hx
        cases hx
      · intro hre
        rw [hcf.1] at hre
        cases hre
      · intro hid
        cases hid

/-- Helper: the `stop` handler preserves the strengthened invariant. -/
theorem inv_stopAction (g : GlobalState) (now : Int)
    (prev : RecordingState) (h : Inv g)
    (h1 : g.session.overlayEnabled = true) :
    Inv (stopAction g now prev).state := by
  obtain ⟨hff, hdis, hrec, hidle⟩ := h
  unfold stopAction
  rcases hctx : stopVideoRecordingCtx g.env with e | ⟨vp, envN⟩ <;>
    simp only [hctx]
  · exact ⟨hff, hdis, hrec, hidle⟩
  · have hcf := ctx_ok_fields g.env vp envN hctx
    rcases htr : truthy vp with _ | p <;>
      rcases hst : g.session.startTime with _ | st <;>
      simp only [htr, hst, COut.state] <;>
      refine ⟨hcf.2.trans hff, ?_, ?_, ?_⟩ <;>
      intro hx
    all_goals first
      | (rw [h1] at hx; cases hx)
      | (rw [hcf.1] at hx; cases hx)
      | cases hx

/-- Helper: the enable handler preserves the strengthened invariant. -/
theorem inv_enable (g : GlobalState) (pos : Option OverlayPosition)
    (auto : Bool) (sid : String) (now : Int) (cap : Option String)
    (h : Inv g) :
    Inv (videoOverlayEnable g pos auto sid now cap).state := by
  obtain ⟨hff, hdis, hrec, hidle⟩ := h
  unfold videoOverlayEnable
  by_cases h1 : g.session.overlayEnabled = true
  · simp only [h1, if_true, EOut.state]
    exact ⟨hff, hdis, hrec, hidle⟩
  · rw [Bool.not_eq_true] at h1
    obtain ⟨a1, a2, a3, a4, a5⟩ := hdis h1
    by_cases hauto : auto = true
    · simp only [h1, hauto, Bool.false_eq_true, if_false, if_true, a4,
        EOut.state]
      rcases hstart : startVideoRecording (ensureTab g.env) cap with e | envN
      · have hx := start_error_means_enabled _ cap e hstart
        rw [(ensureTab_fields g.env).1, a5] at hx
        cases hx
      · have hsf := start_ok_fields _ cap envN hstart
        refine ⟨hsf.2.trans ((ensureTab_fields g.env).2.trans hff), ?_,
          fun _ => rfl, ?_⟩
        · intro hx
          cases hx
        · intro hid
          cases hid
    · rw [Bool.not_eq_true] at hauto
      simp only [h1, hauto, Bool.false_eq_true, if_false, EOut.state]
      refine ⟨(ensureTab_fields g.env).2.trans hff, ?_, ?_,
        fun _ => ⟨a2, a1⟩⟩
      · intro hx
        cases hx
      · intro hre
        rw [(ensureTab_fields g.env).1, a5] at hre
        cases hre

/-- Helper: every single step preserves the strengthened invariant. -/
theorem inv_step (g : GlobalState) (c : Cmd) (now : Int) (h : Inv g) :
    Inv (step g (c, now)) := by
  cases c with
  | enable pos auto sid cap => exact inv_enable g pos auto sid now cap h
  | control a cap =>
      have hstep : step g (.control a cap, now)
          = (videoOverlayControl g a now cap).state := rfl
      rw [hstep]
      rcases control_state_cases g a now cap with hc | ⟨h1, hc | hc | hc | hc⟩ <;>
        rw [hc]
      · exact h
      · exact inv_recordAction g now cap g.session.overlayState h h1
      · exact inv_pauseAction g now g.session.overlayState h h1
      · exact inv_resumeAction g now cap g.session.overlayState h h1
      · exact inv_stopAction g now g.session.overlayState h h1
  | fire =>
      have hstep : step g (.fire, now)
          = if g.session.recordingTimeout.isSome then fireWatchdog g now else g :=
        rfl
      rw [hstep]
      split
      · unfold fireWatchdog
        split
        · exact inv_sri g now h
        · exact h
      · exact h

/-- Helper: the strengthened invariant holds along every history. -/
theorem inv_run (g : GlobalState) (hist : List (Cmd × Int)) (h : Inv g) :
    Inv (run g hist) := by
  induction hist generalizing g with
  | nil => exact h
  | cons c rest ih =>
      obtain ⟨cmd, t⟩ := c
      exact ih (step g (cmd, t)) (inv_step g cmd t h)

/-- Helper: the strengthened invariant holds at process start. -/
theorem inv_init (env0 : Env) (hff : env0.finalizeFails = false)
    (henb : env0.recordingEnabled = false) : Inv (initState env0) := by
  refine ⟨hff, fun _ => ⟨rfl, rfl, rfl, rfl, henb⟩, ?_, fun _ => ⟨rfl, rfl⟩⟩
  intro hre
  exact absurd (henb.symm.trans hre) (by decide)

/-- C3 (amended): over a fault-free environment (teardown never fails,
    recording initially disabled, as at process start), every history of
    enable / control / watchdog-fire steps keeps the invariant: whenever the
    session state is idle, `videoPath` and `startTime` are null.  (When a
    teardown fault occurs, the invariant can break; see the
    counterexample.) -/
theorem idle_implies_no_output_for_failure_free_histories (env0 : Env)
    (hist : List (Cmd × Int))
    (hff : env0.finalizeFails = false)
    (henb : env0.recordingEnabled = false) :
    (run (initState env0) hist).session.overlayState = .idle →
    (run (initState env0) hist).session.videoPath = none ∧
    (run (initState env0) hist).session.startTime = none :=
  (inv_run (initState env0) hist (inv_init env0 hff henb)).2.2.2

/-- C3 witness: the amended invariant evaluated on the enable-only history,
    whose final state is idle. -/
theorem idle_invariant_witness :
    (run (initState (emptyEnv false)) [(.enable none false "sid" none, 0)]).session.overlayState
      = .idle ∧
    (run (initState (emptyEnv false)) [(.enable none false "sid" none, 0)]).session.videoPath
      = none ∧
    (run (initState (emptyEnv false)) [(.enable none false "sid" none, 0)]).session.startTime
      = none :=
  ⟨by decide,
   idle_implies_no_output_for_failure_free_histories (emptyEnv false)
     [(.enable none false "sid" none, 0)] rfl rfl (by decide)⟩

end PlaywrightVideo
